import Mathlib

/-!
Verification of the dynamic schema composition and validation-gated fallback
engine of `packages/jupyterlab-lsp/src/settings.ts`, together with its
dotted-key override collapser.  JSON values are shallowly embedded as an
inductive type; JavaScript object mutation is modelled by functional update,
and JavaScript `TypeError`s (member access on `undefined`/`null`,
`Object.entries` of `undefined`) are modelled with `Except String`.
-/

namespace LspSettings

/-- JSON values: the data manipulated by the settings subsystem. -/
inductive JSON where
  | null : JSON
  | bool : Bool → JSON
  | num : Int → JSON
  | str : String → JSON
  | arr : List JSON → JSON
  | obj : List (String × JSON) → JSON

mutual
/-- Structural boolean equality of JSON values. -/
def beqJSON : JSON → JSON → Bool
  | JSON.null, JSON.null => true
  | JSON.bool a, JSON.bool b => a == b
  | JSON.num a, JSON.num b => a == b
  | JSON.str a, JSON.str b => a == b
  | JSON.arr xs, JSON.arr ys => beqJSONList xs ys
  | JSON.obj fs, JSON.obj gs => beqJSONFields fs gs
  | _, _ => false

/-- Structural boolean equality of JSON arrays. -/
def beqJSONList : List JSON → List JSON → Bool
  | [], [] => true
  | x :: xs, y :: ys => beqJSON x y && beqJSONList xs ys
  | _, _ => false

/-- Structural boolean equality of JSON object field lists. -/
def beqJSONFields : List (String × JSON) → List (String × JSON) → Bool
  | [], [] => true
  | (k, v) :: xs, (k', v') :: ys => k == k' && beqJSON v v' && beqJSONFields xs ys
  | _, _ => false
end

mutual
theorem eq_of_beqJSON : ∀ {a b : JSON}, beqJSON a b = true → a = b
  | JSON.null, JSON.null, _ => rfl
  | JSON.bool _, JSON.bool _, h => congrArg JSON.bool (eq_of_beq h)
  | JSON.num _, JSON.num _, h => congrArg JSON.num (eq_of_beq h)
  | JSON.str _, JSON.str _, h => congrArg JSON.str (eq_of_beq h)
  | JSON.arr _, JSON.arr _, h => congrArg JSON.arr (eq_of_beqJSONList h)
  | JSON.obj _, JSON.obj _, h => congrArg JSON.obj (eq_of_beqJSONFields h)
  | JSON.null, JSON.bool _, h => Bool.noConfusion h
  | JSON.null, JSON.num _, h => Bool.noConfusion h
  | JSON.null, JSON.str _, h => Bool.noConfusion h
  | JSON.null, JSON.arr _, h => Bool.noConfusion h
  | JSON.null, JSON.obj _, h => Bool.noConfusion h
  | JSON.bool _, JSON.null, h => Bool.noConfusion h
  | JSON.bool _, JSON.num _, h => Bool.noConfusion h
  | JSON.bool _, JSON.str _, h => Bool.noConfusion h
  | JSON.bool _, JSON.arr _, h => Bool.noConfusion h
  | JSON.bool _, JSON.obj _, h => Bool.noConfusion h
  | JSON.num _, JSON.null, h => Bool.noConfusion h
  | JSON.num _, JSON.bool _, h => Bool.noConfusion h
  | JSON.num _, JSON.str _, h => Bool.noConfusion h
  | JSON.num _, JSON.arr _, h => Bool.noConfusion h
  | JSON.num _, JSON.obj _, h => Bool.noConfusion h
  | JSON.str _, JSON.null, h => Bool.noConfusion h
  | JSON.str _, JSON.bool _, h => Bool.noConfusion h
  | JSON.str _, JSON.num _, h => Bool.noConfusion h
  | JSON.str _, JSON.arr _, h => Bool.noConfusion h
  | JSON.str _, JSON.obj _, h => Bool.noConfusion h
  | JSON.arr _, JSON.null, h => Bool.noConfusion h
  | JSON.arr _, JSON.bool _, h => Bool.noConfusion h
  | JSON.arr _, JSON.num _, h => Bool.noConfusion h
  | JSON.arr _, JSON.str _, h => Bool.noConfusion h
  | JSON.arr _, JSON.obj _, h => Bool.noConfusion h
  | JSON.obj _, JSON.null, h => Bool.noConfusion h
  | JSON.obj _, JSON.bool _, h => Bool.noConfusion h
  | JSON.obj _, JSON.num _, h => Bool.noConfusion h
  | JSON.obj _, JSON.str _, h => Bool.noConfusion h
  | JSON.obj _, JSON.arr _, h => Bool.noConfusion h

theorem eq_of_beqJSONList : ∀ {xs ys : List JSON}, beqJSONList xs ys = true → xs = ys
  | [], [], _ => rfl
  | _ :: _, _ :: _, h =>
    have h' := (Bool.and_eq_true _ _).mp h
    congr (congrArg List.cons (eq_of_beqJSON h'.1)) (eq_of_beqJSONList h'.2)
  | [], _ :: _, h => Bool.noConfusion h
  | _ :: _, [], h => Bool.noConfusion h

theorem eq_of_beqJSONFields :
    ∀ {fs gs : List (String × JSON)}, beqJSONFields fs gs = true → fs = gs
  | [], [], _ => rfl
  | (_, _) :: _, (_, _) :: _, h =>
    have h' := (Bool.and_eq_true _ _).mp h
    have h'' := (Bool.and_eq_true _ _).mp h'.1
    congr
      (congrArg List.cons
        (congr (congrArg Prod.mk (eq_of_beq h''.1)) (eq_of_beqJSON h''.2)))
      (eq_of_beqJSONFields h'.2)
  | [], (_, _) :: _, h => Bool.noConfusion h
  | (_, _) :: _, [], h => Bool.noConfusion h
end

mutual
theorem beqJSON_refl : ∀ a : JSON, beqJSON a a = true
  | JSON.null => rfl
  | JSON.bool a => beq_self_eq_true a
  | JSON.num a => beq_self_eq_true a
  | JSON.str a => beq_self_eq_true a
  | JSON.arr xs => beqJSONList_refl xs
  | JSON.obj fs => beqJSONFields_refl fs

theorem beqJSONList_refl : ∀ xs : List JSON, beqJSONList xs xs = true
  | [] => rfl
  | x :: xs => (Bool.and_eq_true _ _).mpr ⟨beqJSON_refl x, beqJSONList_refl xs⟩

theorem beqJSONFields_refl : ∀ fs : List (String × JSON), beqJSONFields fs fs = true
  | [] => rfl
  | (k, v) :: fs =>
    (Bool.and_eq_true _ _).mpr
      ⟨(Bool.and_eq_true _ _).mpr ⟨beq_self_eq_true k, beqJSON_refl v⟩, beqJSONFields_refl fs⟩
end

instance : DecidableEq JSON := fun a b =>
  if h : beqJSON a b = true then isTrue (eq_of_beqJSON h)
  else isFalse (fun he => h (he ▸ beqJSON_refl a))

instance {ε α : Type} [DecidableEq ε] [DecidableEq α] : DecidableEq (Except ε α) :=
  fun x y =>
    match x, y with
    | Except.error a, Except.error b =>
      if h : a = b then isTrue (h ▸ rfl) else isFalse (fun he => h (Except.error.inj he))
    | Except.ok a, Except.ok b =>
      if h : a = b then isTrue (h ▸ rfl) else isFalse (fun he => h (Except.ok.inj he))
    | Except.error _, Except.ok _ => isFalse (fun he => Except.noConfusion he)
    | Except.ok _, Except.error _ => isFalse (fun he => Except.noConfusion he)

/-- Lookup in an association list (JS object fields keep first occurrence). -/
def alistGet {β : Type} : List (String × β) → String → Option β
  | [], _ => none
  | (k', v) :: rest, k => if k' = k then some v else alistGet rest k

/-- JS property assignment on an object: replace the value in place if the
key exists, otherwise append the new key at the end. -/
def alistSet {β : Type} : List (String × β) → String → β → List (String × β)
  | [], k, v => [(k, v)]
  | (k', v') :: rest, k, v =>
    if k' = k then (k', v) :: rest else (k', v') :: alistSet rest k v

/-- JS `delete obj[k]`: remove the key. -/
def alistDel {β : Type} (fs : List (String × β)) (k : String) : List (String × β) :=
  fs.filter (fun p => p.1 ≠ k)

/-- JS property read `v.k` on a defined value: fields of objects; `undefined`
(`none`) on primitives and arrays (string field names are not array indices). -/
def getField : JSON → String → Option JSON
  | JSON.obj fs, k => alistGet fs k
  | _, _ => none

/-- JS property write `v.k = x` on an object (only ever applied to objects
in the embedded code paths). -/
def setField : JSON → String → JSON → JSON
  | JSON.obj fs, k, v => JSON.obj (alistSet fs k v)
  | j, _, _ => j

/-- JS `delete v.k` on an object. -/
def deleteField : JSON → String → JSON
  | JSON.obj fs, k => JSON.obj (alistDel fs k)
  | j, _ => j

/-- JS truthiness of a defined value. -/
def jsTruthy : JSON → Bool
  | JSON.null => false
  | JSON.bool b => b
  | JSON.num n => n != 0
  | JSON.str s => s ≠ ""
  | JSON.arr _ => true
  | JSON.obj _ => true

/-- JS truthiness of a possibly-`undefined` value. -/
def jsTruthyOpt : Option JSON → Bool
  | none => false
  | some v => jsTruthy v

/-- JS `Object.entries`: fields of an object, indexed elements of an array,
indexed characters of a string, empty for other primitives. -/
def jsEntries : JSON → List (String × JSON)
  | JSON.obj fs => fs
  | JSON.arr xs => xs.enum.map (fun p => (toString p.1, p.2))
  | JSON.str s => s.data.enum.map (fun p => (toString p.1, JSON.str (String.singleton p.2)))
  | _ => []

/-- JS indexed read `v[k]` on a defined value (objects by field, arrays by
numeric index). -/
def jsIndex : JSON → String → Option JSON
  | JSON.obj fs, k => alistGet fs k
  | JSON.arr xs, k => (k.toNat?).bind (fun i => xs.get? i)
  | _, _ => none

/-- JS member access `v[k]` on a possibly-`undefined` value: throws a
`TypeError` on `undefined` and `null`, yields `undefined` on primitives
without the field. -/
def jsAccess (v : Option JSON) (k : String) : Except String (Option JSON) :=
  match v with
  | none => Except.error ("TypeError: cannot read properties of undefined (reading " ++ k ++ ")")
  | some JSON.null => Except.error ("TypeError: cannot read properties of null (reading " ++ k ++ ")")
  | some j => Except.ok (jsIndex j k)

/-- Read along a chain of object fields (pure variant used in statements). -/
def getAt (j : JSON) (path : List String) : Option JSON :=
  path.foldl (fun o k => o.bind (fun v => getField v k)) (some j)

/-! String helpers mirroring `String.prototype.split('.')`, `startsWith` and
`substring`, written by structural recursion on the character list so that
they compute inside the kernel. -/

/-- Split accumulator: characters seen so far (reversed) and the separator. -/
def splitDotGo : List Char → List Char → List String
  | [], acc => [String.mk acc.reverse]
  | c :: rest, acc =>
    if c = '.' then String.mk acc.reverse :: splitDotGo rest []
    else splitDotGo rest (c :: acc)

/-- JS `s.split('.')`. -/
def splitOnDot (s : String) : List String :=
  splitDotGo s.data []

/-- JS `s.startsWith(pre)`. -/
def strStartsWith (s pre : String) : Bool :=
  decide (s.data.take pre.data.length = pre.data)

/-- JS `s.substring(n)` (ASCII inputs, so code units coincide with characters). -/
def strDrop (s : String) (n : Nat) : String :=
  String.mk (s.data.drop n)

/-- Join path segments with dots. -/
def joinDots : List String → String
  | [] => ""
  | [x] => x
  | x :: xs => x ++ "." ++ joinDots xs

/-! ## The dotted-key collapse utility

The flattening utility `collapseToDotted` lives in `src/utils.ts`, which is
not part of the excerpted sources; it is modelled from the specification. -/

mutual
/-- Leaf assignments contributed by one value placed at `path`; object values
are decomposed recursively, with dotted keys contributing additional path
segments. -/
def leafAssigns (path : List String) : JSON → List (List String × JSON)
  | JSON.obj fields => leafAssignsList path fields
  | v => [(path, v)]

/-- Leaf assignments of a list of fields under a common prefix path. -/
def leafAssignsList (path : List String) : List (String × JSON) → List (List String × JSON)
  | [] => []
  | (k, v) :: rest => leafAssigns (path ++ splitOnDot k) v ++ leafAssignsList path rest
end

/-- Set a value at a nested path, creating (or overwriting) intermediate
objects; the last assignment to a path wins. -/
def setPath : JSON → List String → JSON → JSON
  | _, [], v => v
  | t, k :: rest, v =>
    let fields := match t with | JSON.obj fs => fs | _ => []
    let child := (alistGet fields k).getD (JSON.obj [])
    JSON.obj (alistSet fields k (setPath child rest v))

/-- Deduplicate keeping the first occurrence of each element. -/
def dedupKeepFirst {α : Type} [DecidableEq α] : List α → List α
  | [] => []
  | x :: xs => x :: (dedupKeepFirst xs).filter (fun y => y ≠ x)

/-- Outcome of collapsing one settings group. -/
structure CollapseOut where
  result : JSON
  conflicts : List (String × List JSON)
deriving DecidableEq

/-- Modelled from the spec: the external flattening utility (`collapseToDotted`
of `src/utils.ts`, absent from the excerpt) turns dotted-path keys into a
nested object; a conflict is recorded for a final nested key that receives
more than one distinct raw value, retaining all distinct values in
contribution order, while the merged result keeps the last-processed value. -/
def collapseToDotted (settings : List (String × JSON)) : CollapseOut :=
  let assigns := leafAssignsList [] settings
  let result := assigns.foldl (fun t pv => setPath t pv.1 pv.2) (JSON.obj [])
  let paths := dedupKeepFirst (assigns.map Prod.fst)
  let conflicts := paths.filterMap (fun p =>
    let vs := dedupKeepFirst ((assigns.filter (fun pv => pv.1 = p)).map Prod.snd)
    if 2 ≤ vs.length then some (joinDots p, vs) else none)
  ⟨result, conflicts⟩

/-- Outcome of `_collapseServerSettingsDotted`: the collapsed override map,
the per-server conflicts record, and whether the conflict dialog was shown. -/
structure CollapseServersOut where
  result : JSON
  conflicts : List (String × List (String × List JSON))
  dialogShown : Bool
deriving DecidableEq

/-- Method `SettingsUIManager._collapseServerSettingsDotted` (settings.ts:303-331):
deep-copies the input, collapses each server's `serverSettings` group,
stores each visited server's conflict record unconditionally, and shows the
non-blocking dialog when the conflicts record has at least one key. -/
def _collapseServerSettingsDotted (settings : Option JSON) : Except String CollapseServersOut :=
  match settings with
  | none => Except.error "TypeError: Cannot convert undefined to object"
  | some JSON.null => Except.error "TypeError: Cannot convert null to object"
  | some s =>
    let step := fun (acc : JSON × List (String × List (String × List JSON)))
        (kv : String × JSON) =>
      if ¬ jsTruthy kv.2 then acc
      else if ¬ jsTruthyOpt (getField kv.2 "serverSettings") then acc
      else
        let collapsed := collapseToDotted (jsEntries ((getField kv.2 "serverSettings").getD JSON.null))
        let group := (getField acc.1 kv.1).getD JSON.null
        (setField acc.1 kv.1 (setField group "serverSettings" collapsed.result),
         alistSet acc.2 kv.1 collapsed.conflicts)
    let folded := (jsEntries s).foldl step (s, [])
    Except.ok ⟨folded.1, folded.2, decide (0 < folded.2.length)⟩

/-! ## Schema composition (`populate`, settings.ts:112-248) -/

/-- A server spec as supplied by the language server manager: only the
fields read by `populate`. -/
structure ServerSpec where
  display_name : String
  config_schema : Option JSON
deriving DecidableEq

/-- Function `getDefaults` (settings.ts:47-63): collect `.default` from every
top-level property. -/
def getDefaults (properties : Option JSON) : List (String × JSON) :=
  match properties with
  | none => []
  | some JSON.null => []
  | some p => (jsEntries p).filterMap
      (fun kv => (getField kv.2 "default").map (fun d => (kv.1, d)))

/-- Predicate `isJSONProperty` (settings.ts:38-42): a non-null object with a `type`
or `$ref` key. -/
def isJSONProperty : JSON → Bool
  | JSON.obj fs => (alistGet fs "type").isSome || (alistGet fs "$ref").isSome
  | _ => false

/-- Write `v[k] = x` (JS indexed assignment) on objects and arrays. -/
def jsSetIndex : JSON → String → JSON → JSON
  | JSON.obj fs, k, v => JSON.obj (alistSet fs k v)
  | JSON.arr xs, k, v =>
    (match k.toNat? with
     | some i => JSON.arr (xs.set i v)
     | none => JSON.arr xs)
  | j, _, _ => j

/-- Message template for a server with a live session (settings.ts:165-169). -/
def descDetected (displayName : String) : String :=
  "Settings to be passed to " ++ displayName ++
    " in `workspace/didChangeConfiguration` notification."

/-- Message template for a server without a live session (settings.ts:160-163). -/
def descNotDetected (displayName : String) : String :=
  "Settings that would be passed to `" ++ displayName ++
    "` server (this server was not detected as installed during startup) in `workspace/didChangeConfiguration` notification."

/-- The `$ref` inlining loop of `populate` (settings.ts:172-192), iterating
over the snapshot of top-level property keys.  A `$ref` of the form
`#/definitions/<name>` that resolves is inlined onto the property object,
after which the `$ref` key is deleted; a missing definition logs a warning
but then falls through to `Object.entries(undefined)`, a `TypeError`;
a `$ref` not matching the pattern is warned about and left untouched. -/
def refLoopGo (defsField : Option JSON) (props : JSON) :
    List String → Except String JSON
  | [] => Except.ok props
  | key :: rest =>
    match jsIndex props key with
    | none => refLoopGo defsField props rest
    | some value =>
      if ¬ isJSONProperty value then refLoopGo defsField props rest
      else
        match getField value "$ref" with
        | none => refLoopGo defsField props rest
        | some (JSON.str r) =>
          if strStartsWith r "#/definitions/" then
            match jsAccess defsField (strDrop r 14) with
            | Except.error e => Except.error e
            | Except.ok none =>
              Except.error "TypeError: Cannot convert undefined or null to object"
            | Except.ok (some JSON.null) =>
              Except.error "TypeError: Cannot convert undefined or null to object"
            | Except.ok (some d) =>
              let value' := (jsEntries d).foldl (fun v kv => jsSetIndex v kv.1 kv.2) value
              refLoopGo defsField (jsSetIndex props key (deleteField value' "$ref")) rest
          else refLoopGo defsField props rest
        | some _ => Except.error "TypeError: value.$ref.startsWith is not a function"

/-- The contribution of one non-skipped server spec: its (mutated) config
schema fragment, its `knownServersConfig` entry and its `defaults` entry. -/
structure ProcessedSpec where
  configSchema : JSON
  knownEntry : JSON
  defaultEntry : JSON
deriving DecidableEq

/-- The tail of the per-spec body (settings.ts:194-202): attach the processed
fragment to a deep copy of the base server schema
(`baseSchemaCopy.properties.serverSettings = configSchema`) and build the
defaults entry as the shared defaults spread with a `serverSettings` member
holding the default map. -/
def attachSpec (sharedDefaults : List (String × JSON)) (base : Option JSON)
    (cfg' : JSON) (defaultMap : List (String × JSON)) :
    Except String (Option ProcessedSpec) :=
  match jsAccess base "properties" with
  | Except.error e => Except.error e
  | Except.ok bp =>
    match bp, base with
    | some (JSON.obj bfs), some (JSON.obj basefs) =>
      Except.ok (some
        ⟨cfg',
         JSON.obj (alistSet basefs "properties"
           (JSON.obj (alistSet bfs "serverSettings" cfg'))),
         JSON.obj (alistSet sharedDefaults "serverSettings" (JSON.obj defaultMap))⟩)
    | _, _ =>
      Except.error "TypeError: Cannot create property serverSettings"

/-- The part of the per-spec body after the description/title assignment
(settings.ts:172-202): `$ref` inlining on the fragment's properties, then
default extraction from the now-resolved properties and attachment to the
base server schema. -/
def processSpecRest (sharedDefaults : List (String × JSON)) (base : Option JSON)
    (cfg : JSON) : Except String (Option ProcessedSpec) :=
  let props0 := (getField cfg "properties").getD JSON.null
  let defsField := getField cfg "definitions"
  match refLoopGo defsField props0 ((jsEntries props0).map Prod.fst) with
  | Except.error e => Except.error e
  | Except.ok props =>
    attachSpec sharedDefaults base (setField cfg "properties" props)
      (getDefaults (some props))

/-- One iteration of the spec loop of `populate` (settings.ts:130-203):
skip on empty key, absent/falsy `config_schema`, or falsy
`configSchema.properties` (returning `none`); otherwise set the description
(phrasing depending on a live session) and title on the fragment and run
the rest of the body. -/
def processSpec (sessions : List String) (sharedDefaults : List (String × JSON))
    (base : Option JSON) (serverKey : String) (spec : ServerSpec) :
    Except String (Option ProcessedSpec) :=
  if serverKey = "" then Except.ok none
  else
    match spec.config_schema with
    | none => Except.ok none
    | some cfg0 =>
      if ¬ jsTruthy cfg0 then Except.ok none
      else if ¬ jsTruthyOpt (getField cfg0 "properties") then Except.ok none
      else
        let desc := if sessions.contains serverKey then descDetected spec.display_name
          else descNotDetected spec.display_name
        processSpecRest sharedDefaults base
          (setField (setField cfg0 "description" (JSON.str desc)) "title"
            (JSON.str "Workspace Configuration"))

/-- The skip condition of the spec loop (settings.ts:134-156). -/
def skipsSpec (serverKey : String) (spec : ServerSpec) : Bool :=
  if serverKey = "" then true
  else
    match spec.config_schema with
    | none => true
    | some cfg => !jsTruthy cfg || !jsTruthyOpt (getField cfg "properties")

/-- The spec loop of `populate`: processes specs in catalog iteration order,
accumulating `knownServersConfig` entries, `defaults` entries and the
(possibly mutated) spec list. -/
def composeSpecsLoop (sessions : List String) (shared : List (String × JSON))
    (base : Option JSON) :
    List (String × ServerSpec) →
    Except String (List (String × JSON) × List (String × JSON) × List (String × ServerSpec))
  | [] => Except.ok ([], [], [])
  | (key, spec) :: rest =>
    match processSpec sessions shared base key spec with
    | Except.error e => Except.error e
    | Except.ok none =>
      match composeSpecsLoop sessions shared base rest with
      | Except.error e => Except.error e
      | Except.ok (known, defaults, specsAfter) =>
        Except.ok (known, defaults, (key, spec) :: specsAfter)
    | Except.ok (some out) =>
      match composeSpecsLoop sessions shared base rest with
      | Except.error e => Except.error e
      | Except.ok (known, defaults, specsAfter) =>
        Except.ok ((key, out.knownEntry) :: known,
          (key, out.defaultEntry) :: defaults,
          (key, { spec with config_schema := some out.configSchema }) :: specsAfter)

/-- The composition part of `populate` (settings.ts:116-206): extract the
base server schema from `schema.definitions`, the shared defaults from
`schema.properties.language_servers.properties`, run the spec loop, and
write `knownServersConfig` and `defaults` into the schema. -/
def composePhase (sessions : List String) (specs : List (String × ServerSpec))
    (schema : JSON) :
    Except String (JSON × List (String × JSON) × List (String × ServerSpec)) :=
  match jsAccess (some schema) "definitions" with
  | Except.error e => Except.error e
  | Except.ok defsF =>
    match jsAccess defsF "language-server" with
    | Except.error e => Except.error e
    | Except.ok base =>
      match jsAccess (some schema) "properties" with
      | Except.error e => Except.error e
      | Except.ok sp =>
        match jsAccess sp "language_servers" with
        | Except.error e => Except.error e
        | Except.ok ls =>
          match jsAccess ls "properties" with
          | Except.error e => Except.error e
          | Except.ok lsP =>
            match composeSpecsLoop sessions (getDefaults lsP) base specs with
            | Except.error e => Except.error e
            | Except.ok (known, defaults, specsAfter) =>
              match ls, sp, schema with
              | some (JSON.obj lfs), some (JSON.obj sfs), JSON.obj schfs =>
                Except.ok
                  (JSON.obj (alistSet schfs "properties"
                    (JSON.obj (alistSet sfs "language_servers"
                      (JSON.obj (alistSet (alistSet lfs "properties" (JSON.obj known))
                        "default" (JSON.obj defaults)))))),
                   defaults, specsAfter)
              | _, _, _ =>
                Except.error "TypeError: Cannot create property on non-object"

/-- JS `delete schema.properties.language_servers[k]` (settings.ts:239,242). -/
def deleteLsField (schema : JSON) (k : String) : Except String JSON :=
  match jsAccess (some schema) "properties" with
  | Except.error e => Except.error e
  | Except.ok sp =>
    match jsAccess sp "language_servers" with
    | Except.error e => Except.error e
    | Except.ok ls =>
      match ls with
      | none => Except.error "TypeError: Cannot convert undefined to object in delete"
      | some JSON.null => Except.error "TypeError: Cannot convert null to object in delete"
      | some (JSON.obj lfs) =>
        match sp, schema with
        | some (JSON.obj sfs), JSON.obj schfs =>
          Except.ok (JSON.obj (alistSet schfs "properties"
            (JSON.obj (alistSet sfs "language_servers" (JSON.obj (alistDel lfs k))))))
        | _, _ => Except.error "unreachable: parents are objects"
      | some _ => Except.ok schema

/-- Result of the validation gate: the (possibly rolled-back) schema and the
stored validation errors. -/
structure ValidateOut where
  schema : JSON
  validationErrors : List JSON
deriving DecidableEq

/-- The validation gate of `populate` (settings.ts:210-245): submit the
composed schema to the external validator (a black box returning `none`
when valid); on reported errors, store them and — when the original schema
was captured — delete `language_servers.properties` (resp. `.default`)
from the composed schema exactly when the original lacked a truthy value
there. -/
def validatePhase (validator : JSON → Option (List JSON)) (original : Option JSON)
    (schema : JSON) : Except String ValidateOut :=
  match validator schema with
  | none => Except.ok ⟨schema, []⟩
  | some errs =>
    match original with
    | none => Except.ok ⟨schema, errs⟩
    | some orig =>
      match jsAccess (some orig) "properties" with
      | Except.error e => Except.error e
      | Except.ok op =>
        match jsAccess op "language_servers" with
        | Except.error e => Except.error e
        | Except.ok ols =>
          match jsAccess ols "properties" with
          | Except.error e => Except.error e
          | Except.ok olsProps =>
            match (if ¬ jsTruthyOpt olsProps then deleteLsField schema "properties"
                   else Except.ok schema) with
            | Except.error e => Except.error e
            | Except.ok schema1 =>
              match jsAccess ols "default" with
              | Except.error e => Except.error e
              | Except.ok olsDefault =>
                match (if ¬ jsTruthyOpt olsDefault then deleteLsField schema1 "default"
                       else Except.ok schema1) with
                | Except.error e => Except.error e
                | Except.ok schema2 => Except.ok ⟨schema2, errs⟩

/-- Result of a full `populate` call. -/
structure PopulateOut where
  schema : JSON
  validationErrors : List JSON
  defaults : List (String × JSON)
  specsAfter : List (String × ServerSpec)
deriving DecidableEq

/-- Function `populate` (settings.ts:112-248): composition followed by the validation
gate. -/
def populate (validator : JSON → Option (List JSON)) (sessions : List String)
    (specs : List (String × ServerSpec)) (original : Option JSON) (schema : JSON) :
    Except String PopulateOut :=
  match composePhase sessions specs schema with
  | Except.error e => Except.error e
  | Except.ok (schema', defaults, specsAfter) =>
    match validatePhase validator original schema' with
    | Except.error e => Except.error e
    | Except.ok v => Except.ok ⟨v.schema, v.validationErrors, defaults, specsAfter⟩

/-! ## The `compose` hook (settings.ts:269-292) -/

/-- The rewritten plugin data produced by the `compose` hook. -/
structure ComposeOut where
  user : JSON
  composite : JSON
deriving DecidableEq

/-- The `compose` hook: deep-copy the raw user data, collapse the user's
`language_servers` overrides in place, and mirror the collapsed value into
the composite view (the default-pruning path `_filterOutDefaults` is
commented out in the source and never invoked). -/
def composeHook (user0 : JSON) : Except String ComposeOut :=
  match _collapseServerSettingsDotted (getField user0 "language_servers") with
  | Except.error e => Except.error e
  | Except.ok c =>
    Except.ok ⟨setField user0 "language_servers" c.result,
               setField user0 "language_servers" c.result⟩

/-! ## The fetch hook and cache invalidation (settings.ts:251-300)

The closure variables `original` and `canonical` have TypeScript type
`ISchema | null`; the `if (!original)` / `if (!canonical)` guards test
nullness, modelled with `Option`.  The effect of `populate` on the freshly
deep-copied canonical schema is abstracted as a function `pop`. -/

/-- The two closure variables of `setupSchemaForUI`. -/
structure TransformState where
  original : Option JSON
  canonical : Option JSON
deriving DecidableEq

/-- Events driving the transform closure: a registry fetch (carrying the
plugin's current schema) or a session-set-change notification. -/
inductive TransformEvent where
  | fetch : JSON → TransformEvent
  | sessionsChanged : TransformEvent
deriving DecidableEq

/-- Result of one fetch: the schema handed back to the registry and whether
composition (`populate`) ran on this fetch. -/
structure FetchOut where
  schema : JSON
  populateRan : Bool
deriving DecidableEq

/-- The `fetch` hook (settings.ts:252-268): capture `original` on first
invocation only; recompute `canonical` only when absent, otherwise return
the cached value unchanged. -/
def fetchHook (pop : JSON → JSON) (s : TransformState) (pluginSchema : JSON) :
    TransformState × FetchOut :=
  let original := match s.original with
    | none => some pluginSchema
    | some o => some o
  match s.canonical with
  | some c => (⟨original, some c⟩, ⟨c, false⟩)
  | none =>
    let c := pop pluginSchema
    (⟨original, some c⟩, ⟨c, true⟩)

/-- The `sessionsChanged` handler (settings.ts:297-300): null out `canonical`
(and request a reload, which triggers a later fetch); `original` is kept. -/
def sessionsChangedHook (s : TransformState) : TransformState :=
  ⟨s.original, none⟩

/-- One event step of the transform closure. -/
def stepTransform (pop : JSON → JSON) (s : TransformState) :
    TransformEvent → TransformState
  | TransformEvent.fetch ps => (fetchHook pop s ps).1
  | TransformEvent.sessionsChanged => sessionsChangedHook s

/-- Run the transform closure over a sequence of events. -/
def runTransform (pop : JSON → JSON) (s : TransformState) :
    List TransformEvent → TransformState
  | [] => s
  | e :: rest => runTransform pop (stepTransform pop s e) rest

/-- The plugin schema carried by the first fetch event of a sequence. -/
def firstFetchSchema : List TransformEvent → Option JSON
  | [] => none
  | TransformEvent.fetch ps :: _ => some ps
  | TransformEvent.sessionsChanged :: rest => firstFetchSchema rest

/-! ## Association-list and field-update lemmas -/

theorem alistGet_set_self {β : Type} (fs : List (String × β)) (k : String) (v : β) :
    alistGet (alistSet fs k v) k = some v := by
  induction fs with
  | nil => simp [alistSet, alistGet]
  | cons kv rest ih =>
    obtain ⟨k', v'⟩ := kv
    by_cases h : k' = k <;> simp [alistSet, alistGet, h, ih]

theorem alistGet_set_ne {β : Type} (fs : List (String × β)) (k k' : String) (v : β)
    (h : k' ≠ k) : alistGet (alistSet fs k v) k' = alistGet fs k' := by
  induction fs with
  | nil => simp [alistSet, alistGet, Ne.symm h]
  | cons kv rest ih =>
    obtain ⟨k₀, v₀⟩ := kv
    by_cases h₀ : k₀ = k
    · simp [alistSet, alistGet, h₀, Ne.symm h]
    · by_cases h₁ : k₀ = k' <;> simp [alistSet, alistGet, h₀, h₁, h, ih]

theorem alistSet_set_self {β : Type} (fs : List (String × β)) (k : String) (v w : β) :
    alistSet (alistSet fs k v) k w = alistSet fs k w := by
  induction fs with
  | nil => simp [alistSet]
  | cons kv rest ih =>
    obtain ⟨k₀, v₀⟩ := kv
    by_cases h₀ : k₀ = k <;> simp [alistSet, h₀, ih]

theorem alistGet_del_self {β : Type} (fs : List (String × β)) (k : String) :
    alistGet (alistDel fs k) k = none := by
  induction fs with
  | nil => simp [alistDel, alistGet]
  | cons kv rest ih =>
    obtain ⟨k₀, v₀⟩ := kv
    by_cases h₀ : k₀ = k <;> simpa [alistDel, alistGet, h₀] using ih

theorem alistGet_del_ne {β : Type} (fs : List (String × β)) (k k' : String)
    (h : k' ≠ k) : alistGet (alistDel fs k) k' = alistGet fs k' := by
  induction fs with
  | nil => simp [alistDel, alistGet]
  | cons kv rest ih =>
    obtain ⟨k₀, v₀⟩ := kv
    by_cases h₀ : k₀ = k
    · simpa [alistDel, alistGet, h₀, Ne.symm h] using ih
    · by_cases h₁ : k₀ = k'
      · simp [alistDel, alistGet, h₀, h₁, h]
      · simpa [alistDel, alistGet, h₀, h₁] using ih

theorem alistDel_set_self {β : Type} (fs : List (String × β)) (k : String) (v : β) :
    alistDel (alistSet fs k v) k = alistDel fs k := by
  induction fs with
  | nil => simp [alistSet, alistDel]
  | cons kv rest ih =>
    obtain ⟨k₀, v₀⟩ := kv
    by_cases h₀ : k₀ = k
    · simp [alistSet, alistDel, h₀]
    · simpa [alistSet, alistDel, h₀] using ih

theorem alistDel_set_ne {β : Type} (fs : List (String × β)) (k k' : String) (v : β)
    (h : k' ≠ k) : alistDel (alistSet fs k v) k' = alistSet (alistDel fs k') k v := by
  induction fs with
  | nil => simp [alistSet, alistDel, Ne.symm h]
  | cons kv rest ih =>
    obtain ⟨k₀, v₀⟩ := kv
    by_cases h₀ : k₀ = k
    · simp [alistSet, alistDel, h₀, Ne.symm h]
    · by_cases h₁ : k₀ = k'
      · simpa [alistSet, alistDel, h₀, h₁, h] using ih
      · simpa [alistSet, alistDel, h₀, h₁, h] using ih

theorem getField_setField_ne (j : JSON) (k k' : String) (v : JSON) (h : k' ≠ k) :
    getField (setField j k v) k' = getField j k' := by
  cases j <;> simp [getField, setField, alistGet_set_ne _ _ _ _ h]

theorem getField_setField_self (fs : List (String × JSON)) (k : String) (v : JSON) :
    getField (setField (JSON.obj fs) k v) k = some v := by
  simp [getField, setField, alistGet_set_self]

theorem setField_setField_self (j : JSON) (k : String) (v w : JSON) :
    setField (setField j k v) k w = setField j k w := by
  cases j <;> simp [setField, alistSet_set_self]

theorem deleteField_setField_self (j : JSON) (k : String) (v : JSON) :
    deleteField (setField j k v) k = deleteField j k := by
  cases j <;> simp [setField, deleteField, alistDel_set_self]

theorem deleteField_setField_ne (j : JSON) (k k' : String) (v : JSON) (h : k' ≠ k) :
    deleteField (setField j k v) k' = setField (deleteField j k') k v := by
  cases j <;> simp [setField, deleteField, alistDel_set_ne _ _ _ _ h]

theorem getField_isSome_isObj (j : JSON) (k : String)
    (h : (getField j k).isSome) : ∃ fs, j = JSON.obj fs := by
  cases j <;> simp [getField] at h ⊢

/-! ## Auxiliary lemmas about the fetch/invalidate state machine -/

theorem runTransform_original (pop : JSON → JSON) :
    ∀ (evs : List TransformEvent) (s : TransformState),
      (runTransform pop s evs).original =
        (match s.original with
         | some o => some o
         | none => firstFetchSchema evs) := by
  intro evs
  induction evs with
  | nil =>
    intro s
    cases ho : s.original <;> simp [runTransform, firstFetchSchema, ho]
  | cons e rest ih =>
    intro s
    cases e with
    | fetch ps =>
      cases hc : s.canonical <;> cases ho : s.original <;>
        simp [runTransform, stepTransform, fetchHook, firstFetchSchema, hc, ho, ih]
    | sessionsChanged =>
      cases ho : s.original <;>
        simp [runTransform, stepTransform, sessionsChangedHook, firstFetchSchema, ho, ih]

/-! ## Claim theorems -/

/-- Input for claim C1: an override map whose single server has an
already-nested `serverSettings` group, so collapsing yields zero conflicts
for every server. -/
def c1Input : JSON :=
  JSON.obj [("pyls", JSON.obj [("serverSettings",
    JSON.obj [("a", JSON.obj [("b", JSON.num 1)])])])]

/-- C1: the claim says the conflict dialog is invoked iff at least one server
produced a non-empty conflict list, and that an already-nested map shows no
dialog.  The code disagrees: `_collapseServerSettingsDotted` stores an entry
in its `conflicts` record for every server that has a `serverSettings`
group — even an empty conflict list — and shows the dialog whenever that
record has any key (`Object.keys(conflicts).length > 0`,
settings.ts:318,321).  On `c1Input` the collapse is a no-op (the result
equals the input), every conflict list is empty (`[("pyls", [])]`), yet the
dialog is shown. -/
theorem c1_dialog_shown_without_conflicts :
    _collapseServerSettingsDotted (some c1Input) =
      Except.ok ⟨c1Input, [("pyls", [])], true⟩ := by
  simp only [_collapseServerSettingsDotted, c1Input, jsEntries, List.foldl,
    jsTruthy, jsTruthyOpt, getField, alistGet, collapseToDotted,
    leafAssignsList, leafAssigns, splitOnDot, splitDotGo, setPath,
    dedupKeepFirst, alistSet, joinDots, setField, deleteField, alistDel]
  decide

/-- Base server schema used by the C2 counterexample. -/
def c2Base : Option JSON := some (JSON.obj [("properties", JSON.obj [])])

/-- A server spec whose only property carries a `$ref` to a definition that
is absent from the fragment's own `definitions` map. -/
def c2Spec : ServerSpec :=
  ⟨"X", some (JSON.obj [
    ("properties", JSON.obj [("p", JSON.obj [("$ref", JSON.str "#/definitions/missing")])]),
    ("definitions", JSON.obj [])])⟩

/-- A well-formed spec following the broken one in the C2 loop. -/
def c2Good : ServerSpec :=
  ⟨"Y", some (JSON.obj [("properties", JSON.obj [])])⟩

/-- C2: the claim (and the spec) say a `$ref` to a missing definition is
non-fatal: warn, keep `$ref`, continue.  The code warns (settings.ts:183)
but then falls through to `Object.entries(definition)` with `definition`
undefined (settings.ts:185), a `TypeError`: composition crashes, and the
remaining specs of the loop are never processed. -/
theorem c2_crash_on_missing_definition :
    processSpec [] [] c2Base "x" c2Spec =
      Except.error "TypeError: Cannot convert undefined or null to object" ∧
    composeSpecsLoop [] [] c2Base [("x", c2Spec), ("y", c2Good)] =
      Except.error "TypeError: Cannot convert undefined or null to object" := by
  constructor <;> rfl

/-- C5: the `original` schema snapshot is captured on the very first fetch of
the plugin's lifetime and never overwritten afterwards — after any event
sequence starting from the initial closure state, `original` is exactly the
schema carried by the first fetch event — and a session-set-change
notification clears only the cached canonical schema, leaving `original`
intact. -/
theorem c5_original_schema_stable (pop : JSON → JSON) (evs : List TransformEvent) :
    (runTransform pop ⟨none, none⟩ evs).original = firstFetchSchema evs ∧
    (∀ s : TransformState, sessionsChangedHook s = ⟨s.original, none⟩) :=
  ⟨by simpa using runTransform_original pop evs ⟨none, none⟩, fun _ => rfl⟩

/-- C6: within an epoch, repeated fetches are reference-stable: a fetch runs
composition exactly when the cache is absent, stores the returned schema in
the cache, and any immediately following fetch (no invalidation in between)
returns the identical schema without running composition and leaves the
cache unchanged. -/
theorem c6_epoch_cache_stable (pop : JSON → JSON) (s : TransformState)
    (ps₁ ps₂ : JSON) :
    (fetchHook pop s ps₁).2.populateRan = s.canonical.isNone ∧
    (fetchHook pop s ps₁).1.canonical = some (fetchHook pop s ps₁).2.schema ∧
    (fetchHook pop (fetchHook pop s ps₁).1 ps₂).2.schema = (fetchHook pop s ps₁).2.schema ∧
    (fetchHook pop (fetchHook pop s ps₁).1 ps₂).2.populateRan = false ∧
    (fetchHook pop (fetchHook pop s ps₁).1 ps₂).1.canonical = (fetchHook pop s ps₁).1.canonical := by
  cases hc : s.canonical <;> simp [fetchHook, hc]

/-- C10: after the `compose` hook, the composite's `language_servers` is
exactly the collapsed value assigned to the user's `language_servers` (no
defaults merged, no pruning), and every other top-level key of the
composite equals the corresponding key of the user data as it was before
collapsing. -/
theorem c10_compose_mirrors_user (user0 : JSON) (out : ComposeOut)
    (hok : composeHook user0 = Except.ok out) :
    out.composite = out.user ∧
    (∃ c, _collapseServerSettingsDotted (getField user0 "language_servers") = Except.ok c ∧
      getField out.user "language_servers" = some c.result ∧
      out.composite = setField user0 "language_servers" c.result) ∧
    (∀ k, k ≠ "language_servers" → getField out.composite k = getField user0 k) := by
  unfold composeHook at hok
  cases hcol : _collapseServerSettingsDotted (getField user0 "language_servers") with
  | error e => rw [hcol] at hok; exact Except.noConfusion hok
  | ok c =>
    rw [hcol] at hok
    have he := Except.ok.inj hok
    have hobj : ∃ fs, user0 = JSON.obj fs := by
      cases hg : getField user0 "language_servers" with
      | none => rw [hg] at hcol; exact Except.noConfusion hcol
      | some v =>
        exact getField_isSome_isObj user0 "language_servers" (by rw [hg]; rfl)
    obtain ⟨fs, rfl⟩ := hobj
    refine ⟨?_, ⟨c, rfl, ?_, ?_⟩, ?_⟩
    · rw [← he]
    · rw [← he]
      exact getField_setField_self fs "language_servers" c.result
    · rw [← he]
    · intro k hk
      rw [← he]
      exact getField_setField_ne (JSON.obj fs) "language_servers" k c.result hk

/-- Concrete user data for the C10 witness: one server with a dotted
override and one unrelated top-level key. -/
def c10User : JSON :=
  JSON.obj [("language_servers",
    JSON.obj [("pyls", JSON.obj [("serverSettings", JSON.obj [("a.b", JSON.num 1)])])]),
    ("other", JSON.num 3)]

/-- The plugin data produced by the `compose` hook on `c10User`. -/
def c10Out : ComposeOut :=
  ⟨JSON.obj [("language_servers",
      JSON.obj [("pyls", JSON.obj [("serverSettings",
        JSON.obj [("a", JSON.obj [("b", JSON.num 1)])])])]),
      ("other", JSON.num 3)],
   JSON.obj [("language_servers",
      JSON.obj [("pyls", JSON.obj [("serverSettings",
        JSON.obj [("a", JSON.obj [("b", JSON.num 1)])])])]),
      ("other", JSON.num 3)]⟩

/-- Witness for C10 at a concrete input. -/
theorem c10_compose_mirrors_user_witness :
    composeHook c10User = Except.ok c10Out ∧
    (c10Out.composite = c10Out.user ∧
     (∃ c, _collapseServerSettingsDotted (getField c10User "language_servers") = Except.ok c ∧
       getField c10Out.user "language_servers" = some c.result ∧
       c10Out.composite = setField c10User "language_servers" c.result) ∧
     (∀ k, k ≠ "language_servers" → getField c10Out.composite k = getField c10User k)) :=
  ⟨by
    simp only [composeHook, c10User, c10Out, jsEntries, List.foldl,
      jsTruthy, jsTruthyOpt, getField, alistGet, _collapseServerSettingsDotted,
      collapseToDotted, leafAssignsList, leafAssigns, splitOnDot, splitDotGo,
      setPath, dedupKeepFirst, alistSet, joinDots, setField, deleteField, alistDel]
    decide,
   c10_compose_mirrors_user c10User c10Out (by
    simp only [composeHook, c10User, c10Out, jsEntries, List.foldl,
      jsTruthy, jsTruthyOpt, getField, alistGet, _collapseServerSettingsDotted,
      collapseToDotted, leafAssignsList, leafAssigns, splitOnDot, splitDotGo,
      setPath, dedupKeepFirst, alistSet, joinDots, setField, deleteField, alistDel]
    decide)⟩

theorem jsTruthyOpt_isSome (o : Option JSON) (h : jsTruthyOpt o = true) :
    o.isSome := by
  cases o <;> simp [jsTruthyOpt] at h ⊢

/-- Base server schema used by the C3 example. -/
def c3Base : Option JSON := some (JSON.obj [("properties", JSON.obj [])])

/-- The `pyls` spec of the C3 example, before composition. -/
def c3Spec : ServerSpec :=
  ⟨"Python LS", some (JSON.obj [("properties", JSON.obj [("maxLineLength",
    JSON.obj [("type", JSON.str "number"), ("default", JSON.num 80)])])])⟩

/-- The `pyls` fragment as it stands after composition: description and
title have been written into it. -/
def c3MutatedCfg : JSON :=
  JSON.obj [("properties", JSON.obj [("maxLineLength",
      JSON.obj [("type", JSON.str "number"), ("default", JSON.num 80)])]),
    ("description", JSON.str (descNotDetected "Python LS")),
    ("title", JSON.str "Workspace Configuration")]

/-- The full per-spec output on the C3 example. -/
def c3Out : ProcessedSpec :=
  ⟨c3MutatedCfg,
   JSON.obj [("properties", JSON.obj [("serverSettings", c3MutatedCfg)])],
   JSON.obj [("serverSettings", JSON.obj [("maxLineLength", JSON.num 80)])]⟩

/-- C3 counterexample: the claim says composition works on a deep copy and
the spec's own fragment is structurally identical before and after.  In the
code (settings.ts:142,160-170,186-188) `configSchema` is
`serverSpec.config_schema` itself — description/title assignment and `$ref`
inlining mutate it in place, and only the base template is deep-copied — so
after processing the `pyls` spec its fragment has gained `description` and
`title` members and differs from its pre-composition value. -/
theorem c3_fragment_mutated_counterexample :
    processSpec [] [] c3Base "pyls" c3Spec = Except.ok (some c3Out) ∧
    some c3Out.configSchema ≠ c3Spec.config_schema := by
  constructor
  · rfl
  · decide

/-- C3 amended: the per-spec composition body mutates the received fragment
in place — after any non-skipped spec is processed, its fragment carries
the injected title and the session-dependent description, and the very same
(mutated) fragment is what sits at `properties.serverSettings` of the
`knownServersConfig` entry. -/
theorem c3_fragment_mutation (sessions : List String) (shared : List (String × JSON))
    (base : Option JSON) (key : String) (spec : ServerSpec) (out : ProcessedSpec)
    (hok : processSpec sessions shared base key spec = Except.ok (some out)) :
    getField out.configSchema "title" = some (JSON.str "Workspace Configuration") ∧
    getField out.configSchema "description" = some (JSON.str
      (if sessions.contains key then descDetected spec.display_name
       else descNotDetected spec.display_name)) ∧
    getAt out.knownEntry ["properties", "serverSettings"] = some out.configSchema := by
  by_cases hkey : key = ""
  · simp [processSpec, hkey] at hok
  cases hcs : spec.config_schema with
  | none => simp [processSpec, hkey, hcs] at hok
  | some cfg0 =>
    by_cases ht : jsTruthy cfg0
    case neg => simp [processSpec, hkey, hcs, ht] at hok
    by_cases hp : jsTruthyOpt (getField cfg0 "properties")
    case neg => simp [processSpec, hkey, hcs, ht, hp] at hok
    obtain ⟨fs, rfl⟩ :=
      getField_isSome_isObj cfg0 "properties" (jsTruthyOpt_isSome _ hp)
    simp only [processSpec, hkey, if_false, hcs, ht, not_true_eq_false,
      Bool.not_eq_true, if_neg, hp, ite_false, ite_true] at hok
    simp only [processSpecRest] at hok
    split at hok
    · exact Except.noConfusion hok
    next props hr =>
      simp only [attachSpec] at hok
      split at hok
      · exact Except.noConfusion hok
      next bp hbp =>
        split at hok
        next bfs basefs =>
          have he := Option.some.inj (Except.ok.inj hok)
          rw [← he]
          refine ⟨?_, ?_, ?_⟩
          · rw [getField_setField_ne _ _ _ _ (by decide)]
            exact getField_setField_self _ "title" _
          · rw [getField_setField_ne _ _ _ _ (by decide)]
            rw [getField_setField_ne _ _ _ _ (by decide)]
            exact getField_setField_self fs "description" _
          · simp only [getAt, List.foldl, Option.bind]
            rw [show getField (JSON.obj (alistSet basefs "properties"
                (JSON.obj (alistSet bfs "serverSettings"
                  (setField (setField (setField (JSON.obj fs) "description"
                    (JSON.str (if sessions.contains key then descDetected spec.display_name
                      else descNotDetected spec.display_name))) "title"
                    (JSON.str "Workspace Configuration")) "properties" props)))))
                "properties" = _ from rfl]
            simp [getField, alistGet_set_self]
        next h1 =>
          exact Except.noConfusion hok

/-- Witness for the amended C3 theorem at the concrete `pyls` input. -/
theorem c3_fragment_mutation_witness :
    processSpec [] [] c3Base "pyls" c3Spec = Except.ok (some c3Out) ∧
    (getField c3Out.configSchema "title" = some (JSON.str "Workspace Configuration") ∧
     getField c3Out.configSchema "description" = some (JSON.str
       (if ([] : List String).contains "pyls" then descDetected c3Spec.display_name
        else descNotDetected c3Spec.display_name)) ∧
     getAt c3Out.knownEntry ["properties", "serverSettings"] = some c3Out.configSchema) :=
  ⟨rfl, c3_fragment_mutation [] [] c3Base "pyls" c3Spec c3Out rfl⟩

/-- Apply `f` to the value of field `k`, when present. -/
def updateAtField (j : JSON) (k : String) (f : JSON → JSON) : JSON :=
  match getField j k with
  | some v => setField j k (f v)
  | none => j

/-- Erase the description text from a per-spec contribution: delete the
`description` member of the fragment, and of the fragment's occurrence at
`properties.serverSettings` inside the `knownServersConfig` entry.  The
defaults entry is left untouched. -/
def scrubProcessed (p : ProcessedSpec) : ProcessedSpec :=
  ⟨deleteField p.configSchema "description",
   updateAtField p.knownEntry "properties"
     (fun bp => updateAtField bp "serverSettings" (fun ss => deleteField ss "description")),
   p.defaultEntry⟩

theorem scrubKnown_eq (basefs bfs : List (String × JSON)) (c : JSON) :
    updateAtField (JSON.obj (alistSet basefs "properties"
        (JSON.obj (alistSet bfs "serverSettings" c)))) "properties"
      (fun bp => updateAtField bp "serverSettings" (fun ss => deleteField ss "description")) =
    JSON.obj (alistSet basefs "properties"
      (JSON.obj (alistSet bfs "serverSettings" (deleteField c "description")))) := by
  simp only [updateAtField, getField, alistGet_set_self, setField, alistSet_set_self]

theorem attachSpec_scrub (shared : List (String × JSON)) (base : Option JSON)
    (c₁ c₂ : JSON) (dm : List (String × JSON))
    (hdel : deleteField c₁ "description" = deleteField c₂ "description") :
    Except.map (Option.map scrubProcessed) (attachSpec shared base c₁ dm) =
    Except.map (Option.map scrubProcessed) (attachSpec shared base c₂ dm) := by
  unfold attachSpec
  cases jsAccess base "properties" with
  | error e => rfl
  | ok bp =>
    cases bp with
    | none => rfl
    | some v =>
      cases v <;> try rfl
      case obj bfs =>
        cases base with
        | none => rfl
        | some w =>
          cases w <;> try rfl
          case obj basefs =>
            simp [Except.map, Option.map, scrubProcessed, scrubKnown_eq, hdel]

theorem processSpecRest_scrub (shared : List (String × JSON)) (base : Option JSON)
    (fs : List (String × JSON)) (d₁ d₂ t : JSON) :
    Except.map (Option.map scrubProcessed)
      (processSpecRest shared base
        (setField (setField (JSON.obj fs) "description" d₁) "title" t)) =
    Except.map (Option.map scrubProcessed)
      (processSpecRest shared base
        (setField (setField (JSON.obj fs) "description" d₂) "title" t)) := by
  have hProps : ∀ d : JSON,
      getField (setField (setField (JSON.obj fs) "description" d) "title" t) "properties" =
        getField (JSON.obj fs) "properties" := fun d => by
    rw [getField_setField_ne _ _ _ _ (by decide), getField_setField_ne _ _ _ _ (by decide)]
  have hDefs : ∀ d : JSON,
      getField (setField (setField (JSON.obj fs) "description" d) "title" t) "definitions" =
        getField (JSON.obj fs) "definitions" := fun d => by
    rw [getField_setField_ne _ _ _ _ (by decide), getField_setField_ne _ _ _ _ (by decide)]
  simp only [processSpecRest, hProps, hDefs]
  cases refLoopGo (getField (JSON.obj fs) "definitions")
      ((getField (JSON.obj fs) "properties").getD JSON.null)
      ((jsEntries ((getField (JSON.obj fs) "properties").getD JSON.null)).map Prod.fst) with
  | error e => rfl
  | ok props =>
    apply attachSpec_scrub
    have h1 : ∀ j v : JSON, deleteField (setField j "properties" v) "description" =
        setField (deleteField j "description") "properties" v := fun j v =>
      deleteField_setField_ne j "properties" "description" v (by decide)
    have h2 : ∀ j v : JSON, deleteField (setField j "title" v) "description" =
        setField (deleteField j "description") "title" v := fun j v =>
      deleteField_setField_ne j "title" "description" v (by decide)
    simp only [h1, h2, deleteField_setField_self]

/-- C9: two composition runs over the same spec that differ only in whether a
live session exists for that server agree on everything except the
description text: after erasing the description (from the fragment and from
its occurrence inside the `knownServersConfig` entry), the per-spec results
— including skip behaviour, crash behaviour and the entire defaults entry —
are identical. -/
theorem c9_session_noninterference (sessions₁ sessions₂ : List String)
    (shared : List (String × JSON)) (base : Option JSON)
    (key : String) (spec : ServerSpec) :
    Except.map (Option.map scrubProcessed) (processSpec sessions₁ shared base key spec) =
    Except.map (Option.map scrubProcessed) (processSpec sessions₂ shared base key spec) := by
  by_cases hkey : key = ""
  · simp [processSpec, hkey]
  cases hcs : spec.config_schema with
  | none => simp [processSpec, hkey, hcs]
  | some cfg0 =>
    by_cases ht : jsTruthy cfg0
    case neg => simp [processSpec, hkey, hcs, ht]
    by_cases hp : jsTruthyOpt (getField cfg0 "properties")
    case neg => simp [processSpec, hkey, hcs, ht, hp]
    obtain ⟨fs, rfl⟩ := getField_isSome_isObj cfg0 "properties" (jsTruthyOpt_isSome _ hp)
    simp only [processSpec, hkey, if_false, hcs, ht, not_true_eq_false,
      Bool.not_eq_true, if_neg, hp, ite_false, ite_true]
    exact processSpecRest_scrub shared base fs _ _ _

theorem attachSpec_ne_ok_none (sh : List (String × JSON)) (b : Option JSON)
    (c : JSON) (dm : List (String × JSON)) :
    attachSpec sh b c dm ≠ Except.ok none := by
  unfold attachSpec
  cases jsAccess b "properties" with
  | error e => exact fun h => Except.noConfusion h
  | ok bp =>
    cases bp with
    | none => exact fun h => Except.noConfusion h
    | some v =>
      cases v <;> try exact fun h => Except.noConfusion h
      case obj bfs =>
        cases b with
        | none => exact fun h => Except.noConfusion h
        | some w =>
          cases w <;> try exact fun h => Except.noConfusion h
          case obj basefs =>
            exact fun h => Option.noConfusion (Except.ok.inj h)

theorem processSpecRest_ne_ok_none (sh : List (String × JSON)) (b : Option JSON)
    (cfg : JSON) : processSpecRest sh b cfg ≠ Except.ok none := by
  intro h
  simp only [processSpecRest] at h
  split at h
  · exact Except.noConfusion h
  next props hr => exact attachSpec_ne_ok_none _ _ _ _ h

theorem processSpec_of_skips (sessions : List String) (shared : List (String × JSON))
    (base : Option JSON) (key : String) (spec : ServerSpec)
    (h : skipsSpec key spec = true) :
    processSpec sessions shared base key spec = Except.ok none := by
  unfold skipsSpec at h
  by_cases hkey : key = ""
  · simp [processSpec, hkey]
  · rw [if_neg hkey] at h
    cases hcs : spec.config_schema with
    | none => simp [processSpec, hkey, hcs]
    | some cfg0 =>
      rw [hcs] at h
      by_cases ht : jsTruthy cfg0
      · have hp : jsTruthyOpt (getField cfg0 "properties") = false := by
          simpa [ht] using h
        simp [processSpec, hkey, hcs, ht, hp]
      · simp [processSpec, hkey, hcs, ht]

theorem processSpec_not_skips (sessions : List String) (shared : List (String × JSON))
    (base : Option JSON) (key : String) (spec : ServerSpec)
    (h : skipsSpec key spec = false) :
    processSpec sessions shared base key spec ≠ Except.ok none := by
  unfold skipsSpec at h
  by_cases hkey : key = ""
  · rw [if_pos hkey] at h; exact Bool.noConfusion h
  · rw [if_neg hkey] at h
    cases hcs : spec.config_schema with
    | none => rw [hcs] at h; exact Bool.noConfusion h
    | some cfg0 =>
      rw [hcs] at h
      have h' : (!jsTruthy cfg0 || !jsTruthyOpt (getField cfg0 "properties")) = false := h
      have ht : jsTruthy cfg0 = true := by
        cases hh : jsTruthy cfg0
        · rw [hh] at h'; simp at h'
        · rfl
      have hp : jsTruthyOpt (getField cfg0 "properties") = true := by
        cases hh : jsTruthyOpt (getField cfg0 "properties")
        · rw [hh, ht] at h'; simp at h'
        · rfl
      simp only [processSpec, hkey, if_false, hcs, ht, not_true_eq_false,
        Bool.not_eq_true, if_neg, hp, ite_false, ite_true]
      exact processSpecRest_ne_ok_none _ _ _

theorem composeSpecsLoop_keys (sessions : List String) (shared : List (String × JSON))
    (base : Option JSON) :
    ∀ (specs : List (String × ServerSpec)) (known defaults : List (String × JSON))
      (specsAfter : List (String × ServerSpec)),
    composeSpecsLoop sessions shared base specs = Except.ok (known, defaults, specsAfter) →
    known.map Prod.fst = (specs.filter (fun p => !skipsSpec p.1 p.2)).map Prod.fst ∧
    defaults.map Prod.fst = (specs.filter (fun p => !skipsSpec p.1 p.2)).map Prod.fst := by
  intro specs
  induction specs with
  | nil =>
    intro known defaults specsAfter hok
    simp only [composeSpecsLoop] at hok
    have he := Except.ok.inj hok
    injection he with h1 h23
    injection h23 with h2 h3
    subst h1; subst h2
    simp
  | cons p rest ih =>
    obtain ⟨key, spec⟩ := p
    intro known defaults specsAfter hok
    simp only [composeSpecsLoop] at hok
    cases hps : processSpec sessions shared base key spec with
    | error e => rw [hps] at hok; exact Except.noConfusion hok
    | ok r =>
      rw [hps] at hok
      cases r with
      | none =>
        have hskip : skipsSpec key spec = true := by
          cases hsk : skipsSpec key spec
          · exact absurd hps (processSpec_not_skips sessions shared base key spec hsk)
          · rfl
        cases hloop : composeSpecsLoop sessions shared base rest with
        | error e => rw [hloop] at hok; exact Except.noConfusion hok
        | ok trip =>
          obtain ⟨known', defaults', specsAfter'⟩ := trip
          rw [hloop] at hok
          have he := Except.ok.inj hok
          injection he with h1 h23
          injection h23 with h2 h3
          subst h1; subst h2
          have hr := ih known' defaults' specsAfter' hloop
          simp [hskip, hr.1, hr.2]
      | some out =>
        have hskip : skipsSpec key spec = false := by
          cases hsk : skipsSpec key spec
          · rfl
          · have := processSpec_of_skips sessions shared base key spec hsk
            rw [this] at hps
            exact Option.noConfusion (Except.ok.inj hps)
        cases hloop : composeSpecsLoop sessions shared base rest with
        | error e => rw [hloop] at hok; exact Except.noConfusion hok
        | ok trip =>
          obtain ⟨known', defaults', specsAfter'⟩ := trip
          rw [hloop] at hok
          have he := Except.ok.inj hok
          injection he with h1 h23
          injection h23 with h2 h3
          subst h1; subst h2
          have hr := ih known' defaults' specsAfter' hloop
          simp [hskip, hr.1, hr.2]

/-- Base server schema used by the C7 example. -/
def c7Base : Option JSON := some (JSON.obj [("properties", JSON.obj [])])

/-- A spec that is not skipped (non-empty key, truthy schema with
properties) but whose `$ref` points at a missing definition. -/
def c7CrashSpec : ServerSpec :=
  ⟨"C", some (JSON.obj [
    ("properties", JSON.obj [("p", JSON.obj [("$ref", JSON.str "#/definitions/gone")])]),
    ("definitions", JSON.obj [])])⟩

/-- C7 counterexample: the claim says every non-skipped spec contributes
exactly one entry to each output map.  `c7CrashSpec` is not skipped, yet
composing it produces no maps at all: the `$ref` with a missing definition
makes the loop throw (settings.ts:185), so the spec contributes nothing
and there is no output. -/
theorem c7_crash_counterexample :
    skipsSpec "s" c7CrashSpec = false ∧
    composeSpecsLoop [] [] c7Base [("s", c7CrashSpec)] =
      Except.error "TypeError: Cannot convert undefined or null to object" := by
  constructor <;> rfl

/-- C7 amended: provided composition completes (no spec crashes the loop, cf.
the counterexample), a spec with an empty key, absent schema or missing
properties is skipped and contributes to neither output map, every
non-skipped spec contributes exactly one entry (in order) to each map, and
composing zero specs yields both maps empty. -/
theorem c7_skip_and_contribution (sessions : List String) (shared : List (String × JSON))
    (base : Option JSON) (specs : List (String × ServerSpec))
    (known defaults : List (String × JSON)) (specsAfter : List (String × ServerSpec))
    (hok : composeSpecsLoop sessions shared base specs = Except.ok (known, defaults, specsAfter)) :
    known.map Prod.fst = (specs.filter (fun p => !skipsSpec p.1 p.2)).map Prod.fst ∧
    defaults.map Prod.fst = (specs.filter (fun p => !skipsSpec p.1 p.2)).map Prod.fst ∧
    composeSpecsLoop sessions shared base [] = Except.ok ([], [], []) :=
  ⟨(composeSpecsLoop_keys sessions shared base specs known defaults specsAfter hok).1,
   (composeSpecsLoop_keys sessions shared base specs known defaults specsAfter hok).2,
   rfl⟩

/-- Specs for the C7 witness: one skipped (empty key), one contributing. -/
def c7Specs : List (String × ServerSpec) :=
  [("", ⟨"E", some (JSON.obj [("properties", JSON.obj [])])⟩),
   ("good", ⟨"G", some (JSON.obj [("properties", JSON.obj [])])⟩)]

/-- The fragment of the contributing C7 spec after composition. -/
def c7GoodCfgAfter : JSON :=
  JSON.obj [("properties", JSON.obj []),
    ("description", JSON.str (descNotDetected "G")),
    ("title", JSON.str "Workspace Configuration")]

/-- The `knownServersConfig` computed on `c7Specs`. -/
def c7Known : List (String × JSON) :=
  [("good", JSON.obj [("properties", JSON.obj [("serverSettings", c7GoodCfgAfter)])])]

/-- Defaults table computed on `c7Specs`. -/
def c7Defaults : List (String × JSON) :=
  [("good", JSON.obj [("serverSettings", JSON.obj [])])]

/-- The spec list after composition (fragments mutated in place). -/
def c7After : List (String × ServerSpec) :=
  [("", ⟨"E", some (JSON.obj [("properties", JSON.obj [])])⟩),
   ("good", ⟨"G", some c7GoodCfgAfter⟩)]

/-- Witness for the amended C7 theorem at a concrete input. -/
theorem c7_skip_and_contribution_witness :
    composeSpecsLoop [] [] c7Base c7Specs = Except.ok (c7Known, c7Defaults, c7After) ∧
    (c7Known.map Prod.fst = (c7Specs.filter (fun p => !skipsSpec p.1 p.2)).map Prod.fst ∧
     c7Defaults.map Prod.fst = (c7Specs.filter (fun p => !skipsSpec p.1 p.2)).map Prod.fst ∧
     composeSpecsLoop [] [] c7Base [] = Except.ok ([], [], [])) :=
  ⟨rfl, c7_skip_and_contribution [] [] c7Base c7Specs c7Known c7Defaults c7After rfl⟩

/-- Modelled from the spec: the defaults-entry formula of section 4.1, steps
5 and 7 — the defaults entry for a key is the shared defaults spread with a
`serverSettings` member that collects the `default` member of every
top-level property of the (now ref-resolved) properties, in property
order. -/
def specDefaultsEntry (sharedDefaults : List (String × JSON)) (resolvedProps : JSON) : JSON :=
  JSON.obj (alistSet sharedDefaults "serverSettings"
    (JSON.obj ((jsEntries resolvedProps).filterMap
      (fun kv => match getField kv.2 "default" with
        | some d => some (kv.1, d)
        | none => none))))

theorem getDefaults_eq_filterMap (p : JSON) :
    getDefaults (some p) = (jsEntries p).filterMap
      (fun kv => match getField kv.2 "default" with
        | some d => some (kv.1, d)
        | none => none) := by
  cases p with
  | null => rfl
  | obj fs =>
    simp only [getDefaults, jsEntries]
    congr 1
    funext kv
    cases getField kv.2 "default" <;> rfl
  | arr xs =>
    simp only [getDefaults, jsEntries]
    congr 1
    funext kv
    cases getField kv.2 "default" <;> rfl
  | str s =>
    simp only [getDefaults, jsEntries]
    congr 1
    funext kv
    cases getField kv.2 "default" <;> rfl
  | bool b => rfl
  | num n => rfl

/-- C8: for every non-skipped spec that composition processes successfully,
the recorded defaults entry equals the shared defaults merged with a
`serverSettings` map holding exactly the defaults of the (ref-resolved)
top-level properties stored in the output schema — the spec's formula
`sharedDefaults` spread with the collected default map. -/
theorem c8_defaults_entry (sessions : List String) (shared : List (String × JSON))
    (base : Option JSON) (key : String) (spec : ServerSpec) (out : ProcessedSpec)
    (hok : processSpec sessions shared base key spec = Except.ok (some out)) :
    out.defaultEntry =
      specDefaultsEntry shared ((getField out.configSchema "properties").getD JSON.null) := by
  by_cases hkey : key = ""
  · simp [processSpec, hkey] at hok
  cases hcs : spec.config_schema with
  | none => simp [processSpec, hkey, hcs] at hok
  | some cfg0 =>
    by_cases ht : jsTruthy cfg0
    case neg => simp [processSpec, hkey, hcs, ht] at hok
    by_cases hp : jsTruthyOpt (getField cfg0 "properties")
    case neg => simp [processSpec, hkey, hcs, ht, hp] at hok
    obtain ⟨fs, rfl⟩ :=
      getField_isSome_isObj cfg0 "properties" (jsTruthyOpt_isSome _ hp)
    simp only [processSpec, hkey, if_false, hcs, ht, not_true_eq_false,
      Bool.not_eq_true, if_neg, hp, ite_false, ite_true] at hok
    simp only [processSpecRest] at hok
    split at hok
    · exact Except.noConfusion hok
    next props hr =>
      simp only [attachSpec] at hok
      split at hok
      · exact Except.noConfusion hok
      next bp hbp =>
        split at hok
        next bfs basefs =>
          have he := Option.some.inj (Except.ok.inj hok)
          rw [← he]
          show JSON.obj (alistSet shared "serverSettings"
              (JSON.obj (getDefaults (some props)))) = _
          simp only [setField, getField, alistGet_set_self, Option.getD]
          simp [specDefaultsEntry, getDefaults_eq_filterMap]
        next h1 =>
          exact Except.noConfusion hok

/-- Shared defaults of the C8 example: one shared field `priority` with
default 50. -/
def c8Shared : List (String × JSON) := [("priority", JSON.num 50)]

/-- Base server schema of the C8 example. -/
def c8Base : Option JSON := some (JSON.obj [("properties", JSON.obj [])])

/-- The `pyls` spec of the C8 example: a single property `maxLineLength`
with default 80. -/
def c8Spec : ServerSpec :=
  ⟨"Python LS", some (JSON.obj [("properties", JSON.obj [("maxLineLength",
    JSON.obj [("type", JSON.str "number"), ("default", JSON.num 80)])])])⟩

/-- The per-spec output of the C8 example (live session present). -/
def c8Out : ProcessedSpec :=
  ⟨JSON.obj [("properties", JSON.obj [("maxLineLength",
      JSON.obj [("type", JSON.str "number"), ("default", JSON.num 80)])]),
    ("description", JSON.str (descDetected "Python LS")),
    ("title", JSON.str "Workspace Configuration")],
   JSON.obj [("properties", JSON.obj [("serverSettings",
     JSON.obj [("properties", JSON.obj [("maxLineLength",
         JSON.obj [("type", JSON.str "number"), ("default", JSON.num 80)])]),
       ("description", JSON.str (descDetected "Python LS")),
       ("title", JSON.str "Workspace Configuration")])])],
   JSON.obj [("priority", JSON.num 50),
     ("serverSettings", JSON.obj [("maxLineLength", JSON.num 80)])]⟩

/-- Witness for C8 at the spec's own example: `defaults` for `pyls` is the
shared defaults merged with a `serverSettings` map sending `maxLineLength`
to 80. -/
theorem c8_defaults_entry_witness :
    processSpec ["pyls"] c8Shared c8Base "pyls" c8Spec = Except.ok (some c8Out) ∧
    c8Out.defaultEntry =
      specDefaultsEntry c8Shared ((getField c8Out.configSchema "properties").getD JSON.null) ∧
    c8Out.defaultEntry = JSON.obj [("priority", JSON.num 50),
      ("serverSettings", JSON.obj [("maxLineLength", JSON.num 80)])] :=
  ⟨rfl, c8_defaults_entry ["pyls"] c8Shared c8Base "pyls" c8Spec c8Out rfl, rfl⟩

theorem getAt_composed_shape (schfs sfs L : List (String × JSON)) (k : String) :
    getAt (JSON.obj (alistSet schfs "properties"
        (JSON.obj (alistSet sfs "language_servers" (JSON.obj L)))))
      ["properties", "language_servers", k] = alistGet L k := by
  simp [getAt, getField, alistGet_set_self]

theorem deleteLsField_composed_shape (schfs sfs L : List (String × JSON)) (k : String) :
    deleteLsField (JSON.obj (alistSet schfs "properties"
        (JSON.obj (alistSet sfs "language_servers" (JSON.obj L))))) k =
      Except.ok (JSON.obj (alistSet schfs "properties"
        (JSON.obj (alistSet sfs "language_servers" (JSON.obj (alistDel L k)))))) := by
  simp only [deleteLsField, jsAccess, jsIndex, alistGet_set_self, alistSet_set_self]

theorem composePhase_shape (sessions : List String) (specs : List (String × ServerSpec))
    (schema schema' : JSON) (defaults : List (String × JSON))
    (specsAfter : List (String × ServerSpec))
    (hok : composePhase sessions specs schema = Except.ok (schema', defaults, specsAfter)) :
    ∃ schfs sfs lfs known,
      schema' = JSON.obj (alistSet schfs "properties"
        (JSON.obj (alistSet sfs "language_servers"
          (JSON.obj (alistSet (alistSet lfs "properties" (JSON.obj known))
            "default" (JSON.obj defaults)))))) := by
  simp only [composePhase] at hok
  split at hok
  · exact Except.noConfusion hok
  next defsF h1 =>
    split at hok
    · exact Except.noConfusion hok
    next base h2 =>
      split at hok
      · exact Except.noConfusion hok
      next sp h3 =>
        split at hok
        · exact Except.noConfusion hok
        next ls h4 =>
          split at hok
          · exact Except.noConfusion hok
          next lsP h5 =>
            split at hok
            · exact Except.noConfusion hok
            next known defaults' specsAfter' h6 =>
              split at hok
              next lfs sfs schfs =>
                have he := Except.ok.inj hok
                injection he with ha hbc
                injection hbc with hb hc
                subst hb
                exact ⟨schfs, sfs, lfs, known, ha.symm⟩
              next hne => exact Except.noConfusion hok

theorem validatePhase_rollback (validator : JSON → Option (List JSON))
    (ofs : List (String × JSON)) (opv : JSON) (olfs : List (String × JSON))
    (schfs sfs L : List (String × JSON)) (errs : List JSON)
    (hval : validator (JSON.obj (alistSet schfs "properties"
      (JSON.obj (alistSet sfs "language_servers" (JSON.obj L))))) = some errs)
    (hop : alistGet ofs "properties" = some opv)
    (hol : getField opv "language_servers" = some (JSON.obj olfs)) :
    validatePhase validator (some (JSON.obj ofs))
      (JSON.obj (alistSet schfs "properties"
        (JSON.obj (alistSet sfs "language_servers" (JSON.obj L))))) =
    Except.ok ⟨JSON.obj (alistSet schfs "properties"
      (JSON.obj (alistSet sfs "language_servers" (JSON.obj
        (if jsTruthyOpt (alistGet olfs "default")
         then (if jsTruthyOpt (alistGet olfs "properties") then L else alistDel L "properties")
         else alistDel
           (if jsTruthyOpt (alistGet olfs "properties") then L else alistDel L "properties")
           "default"))))), errs⟩ := by
  obtain ⟨opfs, rfl⟩ := getField_isSome_isObj opv "language_servers" (by rw [hol]; rfl)
  simp only [validatePhase, hval, jsAccess, jsIndex, hop]
  rw [show alistGet opfs "language_servers" = some (JSON.obj olfs) from hol]
  cases hb1 : jsTruthyOpt (alistGet olfs "properties") <;>
    cases hb2 : jsTruthyOpt (alistGet olfs "default") <;>
      simp [hb1, hb2, deleteLsField_composed_shape]

/-- C4: when the external validator reports errors on the composed schema and
the original pre-composition schema was captured (with its
`language_servers` node an object, as a plugin schema always has),
`populate` completes without an exception, stores the reported errors for
the UI, and rolls back field-granularly: the composed schema's
`language_servers.properties` is deleted exactly when the original lacked a
truthy value there, and symmetrically for `language_servers.default`. -/
theorem c4_validation_rollback (validator : JSON → Option (List JSON))
    (sessions : List String) (specs : List (String × ServerSpec))
    (orig schema schema' : JSON) (defaults : List (String × JSON))
    (specsAfter : List (String × ServerSpec)) (errs : List JSON)
    (olfs : List (String × JSON))
    (hcomp : composePhase sessions specs schema = Except.ok (schema', defaults, specsAfter))
    (hval : validator schema' = some errs)
    (horig : getAt orig ["properties", "language_servers"] = some (JSON.obj olfs)) :
    ∃ out, populate validator sessions specs (some orig) schema = Except.ok out ∧
      out.validationErrors = errs ∧
      ((getAt out.schema ["properties", "language_servers", "properties"]).isNone ↔
        jsTruthyOpt (getAt orig ["properties", "language_servers", "properties"]) = false) ∧
      ((getAt out.schema ["properties", "language_servers", "default"]).isNone ↔
        jsTruthyOpt (getAt orig ["properties", "language_servers", "default"]) = false) := by
  obtain ⟨schfs, sfs, lfs, known, rfl⟩ :=
    composePhase_shape sessions specs schema _ defaults specsAfter hcomp
  simp only [getAt, List.foldl, Option.bind] at horig
  cases hop : getField orig "properties" with
  | none => rw [hop] at horig; exact Option.noConfusion horig
  | some opv =>
    rw [hop] at horig
    have horig' : getField opv "language_servers" = some (JSON.obj olfs) := horig
    obtain ⟨opfs, rfl⟩ :=
      getField_isSome_isObj opv "language_servers" (by rw [horig']; rfl)
    obtain ⟨ofs, rfl⟩ := getField_isSome_isObj orig "properties" (by rw [hop]; rfl)
    have hop' : alistGet ofs "properties" = some (JSON.obj opfs) := hop
    have hol' : alistGet opfs "language_servers" = some (JSON.obj olfs) := horig'
    have hvr := validatePhase_rollback validator ofs (JSON.obj opfs) olfs schfs sfs
      (alistSet (alistSet lfs "properties" (JSON.obj known)) "default" (JSON.obj defaults))
      errs hval hop' horig'
    refine ⟨⟨JSON.obj (alistSet schfs "properties"
        (JSON.obj (alistSet sfs "language_servers" (JSON.obj
          (if jsTruthyOpt (alistGet olfs "default")
           then (if jsTruthyOpt (alistGet olfs "properties")
             then alistSet (alistSet lfs "properties" (JSON.obj known))
               "default" (JSON.obj defaults)
             else alistDel (alistSet (alistSet lfs "properties" (JSON.obj known))
               "default" (JSON.obj defaults)) "properties")
           else alistDel
             (if jsTruthyOpt (alistGet olfs "properties")
              then alistSet (alistSet lfs "properties" (JSON.obj known))
                "default" (JSON.obj defaults)
              else alistDel (alistSet (alistSet lfs "properties" (JSON.obj known))
                "default" (JSON.obj defaults)) "properties")
             "default"))))),
        errs, defaults, specsAfter⟩, ?_, rfl, ?_, ?_⟩
    · simp only [populate, hcomp]
      rw [hvr]
    · rw [getAt_composed_shape]
      have hgo : getAt (JSON.obj ofs) ["properties", "language_servers", "properties"] =
          alistGet olfs "properties" := by
        simp [getAt, getField, hop', hol']
      rw [hgo]
      cases hb1 : jsTruthyOpt (alistGet olfs "properties") <;>
        cases hb2 : jsTruthyOpt (alistGet olfs "default") <;>
          simp [hb1, hb2, alistGet_del_self, alistGet_del_ne, alistGet_set_self,
            alistGet_set_ne]
    · rw [getAt_composed_shape]
      have hgo : getAt (JSON.obj ofs) ["properties", "language_servers", "default"] =
          alistGet olfs "default" := by
        simp [getAt, getField, hop', hol']
      rw [hgo]
      cases hb1 : jsTruthyOpt (alistGet olfs "properties") <;>
        cases hb2 : jsTruthyOpt (alistGet olfs "default") <;>
          simp [hb1, hb2, alistGet_del_self, alistGet_del_ne, alistGet_set_self,
            alistGet_set_ne]

/-- A validator that rejects every schema (C4 witness). -/
def c4Validator : JSON → Option (List JSON) :=
  fun _ => some [JSON.str "validation failed"]

/-- Plugin schema for the C4 witness. -/
def c4Schema : JSON :=
  JSON.obj [
    ("properties", JSON.obj [("language_servers", JSON.obj [("properties", JSON.obj [])])]),
    ("definitions", JSON.obj [("language-server", JSON.obj [("properties", JSON.obj [])])])]

/-- Original schema for the C4 witness: its `language_servers` node lacks
both `properties` and `default`. -/
def c4Orig : JSON :=
  JSON.obj [("properties", JSON.obj [("language_servers", JSON.obj [])])]

/-- The composed schema produced from `c4Schema` with zero specs. -/
def c4Composed : JSON :=
  JSON.obj [
    ("properties", JSON.obj [("language_servers",
      JSON.obj [("properties", JSON.obj []), ("default", JSON.obj [])])]),
    ("definitions", JSON.obj [("language-server", JSON.obj [("properties", JSON.obj [])])])]

/-- Witness for C4 at a concrete input: the validator rejects, the original
lacked both fields, and the rollback deletes both. -/
theorem c4_validation_rollback_witness :
    composePhase [] [] c4Schema = Except.ok (c4Composed, [], []) ∧
    c4Validator c4Composed = some [JSON.str "validation failed"] ∧
    getAt c4Orig ["properties", "language_servers"] = some (JSON.obj []) ∧
    (∃ out, populate c4Validator [] [] (some c4Orig) c4Schema = Except.ok out ∧
      out.validationErrors = [JSON.str "validation failed"] ∧
      ((getAt out.schema ["properties", "language_servers", "properties"]).isNone ↔
        jsTruthyOpt (getAt c4Orig ["properties", "language_servers", "properties"]) = false) ∧
      ((getAt out.schema ["properties", "language_servers", "default"]).isNone ↔
        jsTruthyOpt (getAt c4Orig ["properties", "language_servers", "default"]) = false)) :=
  ⟨rfl, rfl, rfl,
   c4_validation_rollback c4Validator [] [] c4Orig c4Schema c4Composed [] []
     [JSON.str "validation failed"] [] rfl rfl rfl⟩

end LspSettings
